import Mathlib

/-!
Instant Disk Latency Measurement Tool (`latency.c`)

A shallow embedding of `main` of `latency.c`: option parsing, device set-up,
the measurement loop with its once-per-second report, and the `err` / `out`
exit paths.  Everything the C program obtains from the C library or the kernel
(the successive results of `getopt`, `atoi`, the return values of `asprintf`,
`open`, `lseek`, `posix_memalign`, `read` / `write`, the clock readings and the
delivery of `SIGALRM`) is an explicit input.  What the program does to the
outside world is recorded as a trace of events, in program order.

Machine integers: `totaltime` and `count` are `uint32_t`, so every update is
reduced modulo `2 ^ 32`; `calarm` is `int32_t`; the timestamp arithmetic is done
in `long` and only its value modulo `2 ^ 32` reaches `totaltime`.
-/

namespace Latency

/-! ## Constants -/

/-- The macro `MT_OPREAD`, defined as 0. -/
def MT_OPREAD : Int := 0

/-- The macro `MT_OPWRITE`, defined as 1. -/
def MT_OPWRITE : Int := 1

/-- The macro `MT_BUFSIZE`, defined as 4096. -/
def MT_BUFSIZE : Int := 4096

/-! ## Data -/

/-- The C `struct timeval`. -/
structure Timeval where
  tv_sec : Int
  tv_usec : Int
deriving DecidableEq, Repr

/-- One line written to standard output by the report:
`"%u\n"` / `"0\n"` in simple mode, `"%ld: %u us (%u/%u)\n"` /
`"%ld: 0 us (%u/%u)\n"` otherwise. -/
inductive Line
  | simple (mean : Nat)
  | verbose (sec : Int) (mean : Nat) (totaltime : Nat) (count : Nat)
deriving DecidableEq, Repr

/-- The mean latency printed on a line. -/
def Line.mean : Line → Nat
  | .simple m => m
  | .verbose _ m _ _ => m

/-- Diagnostics written to standard error (one constructor per `fprintf`). -/
inductive Msg
  | simpleAlreadySet
  | writeAlreadySet
  | zerosAlreadySet
  | bufsizeAlreadySet (bufsize : Int)
  | invalidBufsize (bufsize : Int)
  | tooManyArguments
  | allocatingName
  | iterationCounter
  | openingDevice (bdevfn : String)
  | offsetToEof
  | offsetToStart
  | mallocAligned (bufsize : Int)
  | zerosInsteadOfRandom
  | readingRandom (bufsize : Int)
  | offsetLoop
deriving DecidableEq, Repr

/-- Externally visible actions of the program, in program order. -/
inductive Event
  | usage
  | stderr (m : Msg)
  | openDev (bdevfn : String)
  | lseekEnd
  | lseekSet
  | memalign (bufsize : Int)
  | memsetZero
  | openUrandom
  | readUrandom
  | closeUrandom
  | setitimer
  | stdout (l : Line)
  | operation (optype : Int)
  | closeDev
deriving DecidableEq, Repr

/-- The global variables of the program together with the locals of `main`
that outlive a single statement.  The defaults are the C initialisers. -/
structure Vars where
  totaltime : Nat := 0
  count : Nat := 0
  calarm : Int := -1
  falarm : Nat := 0
  simple : Nat := 0
  zeros : Nat := 0
  bufsize : Int := -1
  optype : Int := MT_OPREAD
  bdevfd : Int := -1
  err : Int := 0
deriving DecidableEq, Repr

/-- Where control goes after a block of `main`: on to the next statement,
`goto err`, or `goto out`. -/
inductive Flow
  | next (v : Vars)
  | err (v : Vars)
  | out (v : Vars)
deriving DecidableEq, Repr

/-- The variables carried by a control transfer. -/
def Flow.vars : Flow → Vars
  | .next v => v
  | .err v => v
  | .out v => v

/-- One value returned by `getopt(argc, argv, "hwszb:")` other than the final
`-1`, with the `optarg` it leaves behind. -/
structure GetoptRet where
  ret : Char
  optarg : String
deriving DecidableEq, Repr

/-- What the environment feeds one iteration of the measurement loop. -/
structure IterEnv where
  /-- The `tv_sec` of the `gettimeofday(&ts, NULL)` of a verbose report. -/
  now : Int
  /-- Result of `gettimeofday(&ts1, NULL)`. -/
  ts1 : Timeval
  /-- Result of the `read` / `write`. -/
  bytes : Int
  /-- Result of `gettimeofday(&ts2, NULL)`. -/
  ts2 : Timeval
  /-- Result of the corrective `lseek(bdevfd, 0, SEEK_SET)`, if it is called. -/
  seek : Int
  /-- Whether `SIGALRM` is delivered after this iteration has tested (and possibly
  cleared) `falarm` and before the next iteration tests it. -/
  sigalrm : Bool
deriving Repr

/-- What the environment feeds a whole run. -/
structure Env where
  atoi : String → Int
  asprintf : Int
  openfd : Int
  seekEnd : Int
  seekSet : Int
  memalign : Int
  urandfd : Int
  iter : Nat → IterEnv

/-- How far a run got. -/
inductive Status
  | running
  | fault
  | exit (code : Int)
deriving DecidableEq, Repr

/-- Result of running the measurement loop. -/
structure Run where
  status : Status
  trace : List Event
  vars : Vars
deriving Repr

/-- Result of running the program. -/
structure Outcome where
  status : Status
  trace : List Event
deriving DecidableEq, Repr

/-! ## Arithmetic -/

/-- Conversion of a `long` value to `uint32_t`. -/
def wrap32 (x : Int) : Nat := (x % 4294967296).toNat

/-- Unsigned division as the machine performs it: a zero divisor traps. -/
def udiv (a b : Nat) : Option Nat :=
  if b = 0 then none else some (a / b)

/-- The expression `(ts2.tv_sec - ts1.tv_sec)*1000000 + (ts2.tv_usec - ts1.tv_usec)`. -/
def elapsed (ts1 ts2 : Timeval) : Int :=
  (ts2.tv_sec - ts1.tv_sec) * 1000000 + (ts2.tv_usec - ts1.tv_usec)

/-! ## Signal handler -/

/-- The signal handler `void sigalarm_h(){ falarm = 1; }`. -/
def sigalarm_h (v : Vars) : Vars := { v with falarm := 1 }

/-! ## Option parsing (lines 124-172) -/

/-- The body of the `switch (i)` for one `getopt` result. -/
def getoptCase (atoi : String → Int) (v : Vars) (o : GetoptRet) : List Event × Flow :=
  if o.ret = 's' then
    if v.simple ≠ 0 then ([.stderr .simpleAlreadySet], .err v)
    else ([], .next { v with simple := 1 })
  else if o.ret = 'w' then
    if v.optype ≠ 0 then ([.stderr .writeAlreadySet], .err v)
    else ([], .next { v with optype := MT_OPWRITE })
  else if o.ret = 'z' then
    if v.zeros ≠ 0 then ([.stderr .zerosAlreadySet], .err v)
    else ([], .next { v with zeros := 1 })
  else if o.ret = 'b' then
    if v.bufsize ≠ -1 then ([.stderr (.bufsizeAlreadySet v.bufsize)], .err v)
    else
      let v := { v with bufsize := atoi o.optarg }
      if v.bufsize ≤ 0 then ([.stderr (.invalidBufsize v.bufsize)], .err v)
      else ([], .next v)
  else ([.usage], .out v)

/-- The loop `while ((i = getopt(argc, argv, "hwszb:")) != -1){ switch (i){ ... } }`. -/
def getoptLoop (atoi : String → Int) : Vars → List GetoptRet → List Event × Flow
  | v, [] => ([], .next v)
  | v, o :: os =>
    match getoptCase atoi v o with
    | (t, .next v') => (t ++ (getoptLoop atoi v' os).1, (getoptLoop atoi v' os).2)
    | (t, .err v') => (t, .err v')
    | (t, .out v') => (t, .out v')

/-! ## Positional arguments and set-up (lines 174-266) -/

/-- Lines 174-206: argument count, device name, iteration counter, defaults.
`args` are the positional arguments `argv[optind .. argc)`.  On success the
device name is returned with the variables. -/
def fetchArgs (env : Env) (v : Vars) (args : List String) :
    List Event × Flow × Option String :=
  if args.length ≠ 1 ∧ args.length ≠ 2 then
    ((if args.length > 1 then [.stderr .tooManyArguments] else []) ++ [.usage], .err v, none)
  else if env.asprintf ≤ 0 then
    ([.stderr .allocatingName], .err v, none)
  else
    let bdevfn := args.head?
    let v := if args.length = 2 then { v with calarm := env.atoi (args.getD 1 "") } else v
    if args.length = 2 ∧ v.calarm = 0 then
      ([.stderr .iterationCounter], .err v, bdevfn)
    else
      let v := if v.bufsize = -1 then { v with bufsize := MT_BUFSIZE } else v
      match bdevfn with
      | none => ([.usage], .err v, none)
      | some fn => ([], .next v, some fn)

/-- Lines 208-266: open the device, probe its size, allocate and fill the
buffer, arm the timer. -/
def setup (env : Env) (v : Vars) (bdevfn : String) : List Event × Flow :=
  let v := { v with bdevfd := env.openfd }
  if v.bdevfd < 0 then
    ([.openDev bdevfn, .stderr (.openingDevice bdevfn)], .err v)
  else if env.seekEnd < 0 then
    ([.openDev bdevfn, .lseekEnd, .stderr .offsetToEof], .err v)
  else if env.seekSet < 0 then
    ([.openDev bdevfn, .lseekEnd, .lseekSet, .stderr .offsetToStart], .err v)
  else if env.memalign ≠ 0 then
    ([.openDev bdevfn, .lseekEnd, .lseekSet, .memalign v.bufsize,
      .stderr (.mallocAligned v.bufsize)], .err v)
  else
    let fill : List Event :=
      if v.optype = MT_OPWRITE then
        if v.zeros ≠ 0 then [.memsetZero]
        else if env.urandfd < 0 then
          [.openUrandom, .stderr .zerosInsteadOfRandom, .memsetZero]
        else
          [.openUrandom] ++
            (if v.simple = 0 then [.stderr (.readingRandom v.bufsize)] else []) ++
            [.readUrandom, .closeUrandom]
      else []
    ([.openDev bdevfn, .lseekEnd, .lseekSet, .memalign v.bufsize] ++ fill ++ [.setitimer],
      .next v)

/-! ## The measurement loop (lines 268-318) -/

/-- The line printed by a report (lines 272-285); `none` is a division trap. -/
def reportLine (simple : Nat) (now : Int) (totaltime count : Nat) : Option Line :=
  if simple ≠ 0 then
    if count ≠ 0 then (udiv totaltime count).map Line.simple
    else some (Line.simple 0)
  else
    if count ≠ 0 then (udiv totaltime count).map (fun m => Line.verbose now m totaltime count)
    else some (Line.verbose now 0 totaltime count)

/-- Lines 270-291: `if (falarm){ ... }`, "dump registers if alarmed". -/
def dumpRegisters (now : Int) (v : Vars) : Option (List Event × Vars) :=
  if v.falarm ≠ 0 then
    match reportLine v.simple now v.totaltime v.count with
    | none => none
    | some l =>
      let v := { v with count := 0, totaltime := 0, falarm := 0 }
      some ([.stdout l], if v.calarm > 0 then { v with calarm := v.calarm - 1 } else v)
  else some ([], v)

/-- Lines 293-317: the timed operation and the handling of its result. -/
def executeOp (e : IterEnv) (v : Vars) : List Event × Flow :=
  if e.bytes = v.bufsize then
    ([.operation v.optype],
      .next { v with totaltime := wrap32 ((v.totaltime : Int) + elapsed e.ts1 e.ts2),
                     count := (v.count + 1) % 4294967296 })
  else if e.bytes ≤ 0 then
    if e.seek < 0 then
      ([.operation v.optype, .lseekSet, .stderr .offsetLoop], .out { v with err := 1 })
    else ([.operation v.optype, .lseekSet], .next v)
  else ([.operation v.optype], .next v)

/-- One pass through the body of `while(calarm){ ... }`. -/
def iteration (e : IterEnv) (v : Vars) : Option (List Event × Flow) :=
  match dumpRegisters e.now v with
  | none => none
  | some (t, v1) =>
    match executeOp e v1 with
    | (t', .next v2) => some (t ++ t', .next (if e.sigalrm then sigalarm_h v2 else v2))
    | (t', f) => some (t ++ t', f)

/-- The loop `while(calarm){ ... }` followed by `goto out`, run for at most
`fuel` iterations, the first of which is fed `iter k`.  Status `exit c` means that
control has reached the label `out` with `err = c`. -/
def runLoop (iter : Nat → IterEnv) : Nat → Nat → Vars → Run
  | fuel, k, v =>
    if v.calarm = 0 then ⟨.exit v.err, [], v⟩
    else
      match fuel with
      | 0 => ⟨.running, [], v⟩
      | fuel + 1 =>
        match iteration (iter k) v with
        | none => ⟨.fault, [], v⟩
        | some (t, .next v') =>
          let r := runLoop iter fuel (k + 1) v'
          ⟨r.status, t ++ r.trace, r.vars⟩
        | some (t, f) => ⟨.exit f.vars.err, t, f.vars⟩

/-! ## Exit paths (lines 320-338) -/

/-- Label `out`: release the resources and return `err`. -/
def labelOut (v : Vars) : List Event × Int :=
  (if v.bdevfd ≠ -1 then [.closeDev] else [], v.err)

/-- Label `err`: `err = 1;` and fall through to `out`. -/
def labelErr (v : Vars) : List Event × Int :=
  labelOut { v with err := 1 }

/-- Leave through the label a control transfer names; falling off the end of
`main` is the `goto out` of line 321. -/
def leave (t : List Event) : Flow → Outcome
  | .err v => ⟨.exit (labelErr v).2, t ++ (labelErr v).1⟩
  | .out v => ⟨.exit (labelOut v).2, t ++ (labelOut v).1⟩
  | .next v => ⟨.exit (labelOut v).2, t ++ (labelOut v).1⟩

/-! ## `main` -/

/-- The function `int main(int argc, char **argv)`: `opts` are the successive
results of `getopt`, `args` the positional arguments left at `optind`, and the loop is run
for at most `fuel` iterations. -/
def main (env : Env) (fuel : Nat) (opts : List GetoptRet) (args : List String) : Outcome :=
  match getoptLoop env.atoi {} opts with
  | (t0, .next v0) =>
    match fetchArgs env v0 args with
    | (t1, .next v1, some bdevfn) =>
      match setup env v1 bdevfn with
      | (t2, .next v2) =>
        let r := runLoop env.iter fuel 0 v2
        match r.status with
        | .exit _ => leave (t0 ++ t1 ++ t2 ++ r.trace) (.out r.vars)
        | s => ⟨s, t0 ++ t1 ++ t2 ++ r.trace⟩
      | (t2, f) => leave (t0 ++ t1 ++ t2) f
    | (t1, f, _) => leave (t0 ++ t1) f
  | (t0, f) => leave t0 f

/-- Whether the trace contains an `open` of the block device. -/
def opensDevice (t : List Event) : Bool :=
  t.any fun e => match e with
    | .openDev _ => true
    | _ => false

/-- The report lines of a trace, in order. -/
def reports : List Event → List Line
  | [] => []
  | .stdout l :: t => l :: reports t
  | _ :: t => reports t

/-- Whether the trace contains a corrective seek to offset 0. -/
def seeks (t : List Event) : Bool :=
  t.any fun e => match e with
    | .lseekSet => true
    | _ => false

/-! ## Predicates and concrete inputs used in the statements -/

/-- A full-size read of 4096 bytes that took 250 microseconds. -/
def fullRead : IterEnv := ⟨1400000000, ⟨1400000000, 100⟩, 4096, ⟨1400000000, 350⟩, 0, true⟩

/-- A full-size read issued while the wall clock is stepped back by 5 us. -/
def clockSteppedBack : IterEnv := ⟨1400000000, ⟨1400000000, 10⟩, 4096, ⟨1400000000, 5⟩, 0, false⟩

/-- A full-size read that took 10 us. -/
def tenMicroseconds : IterEnv := ⟨1400000000, ⟨1400000000, 0⟩, 4096, ⟨1400000000, 10⟩, 0, false⟩

/-- A read that hits the end of the device: zero bytes, and the seek back to
offset 0 succeeds. -/
def endOfDevice : IterEnv := ⟨1400000000, ⟨1400000000, 0⟩, 0, ⟨1400000000, 40⟩, 0, false⟩

/-- A read of 512 of the 4096 bytes asked for. -/
def shortRead : IterEnv := ⟨1400000000, ⟨1400000000, 0⟩, 512, ⟨1400000000, 40⟩, 0, false⟩

/-- A full-size read during which the clock goes from 1 s to 0.999999 s. -/
def clockBackOne : IterEnv := ⟨1400000000, ⟨1, 0⟩, 4096, ⟨0, 999999⟩, 0, false⟩

/-- From iteration `k` in state `v` the loop reaches the label `out` with
`err = 0` after printing exactly `n` report lines, whatever the number of
iterations allowed beyond some bound. -/
def Finishes (iter : Nat → IterEnv) (k : Nat) (v : Vars) (n : Nat) : Prop :=
  ∃ fuel, ∀ fuel', fuel ≤ fuel' →
    (runLoop iter fuel' k v).status = .exit 0 ∧
    (reports (runLoop iter fuel' k v).trace).length = n

/-- A read of zero bytes after which the seek back to offset 0 fails. -/
def endOfDeviceSeekFails : IterEnv :=
  ⟨1400000000, ⟨1400000000, 0⟩, 0, ⟨1400000000, 40⟩, -1, false⟩

/-- A read that fails with -1 after which the seek back to offset 0 succeeds. -/
def failedRead : IterEnv := ⟨1400000000, ⟨1400000000, 0⟩, -1, ⟨1400000000, 40⟩, 0, true⟩

/-- Whether control goes to the label `err`. -/
def Flow.isErr : Flow → Bool
  | .err _ => true
  | _ => false

/-- Whether control goes to the label `out`. -/
def Flow.isOut : Flow → Bool
  | .out _ => true
  | _ => false

/-- The values of `atoi` on the argument strings of the examples. -/
def atoiSample (s : String) : Int :=
  if s = "-5" then -5 else if s = "3" then 3 else if s = "4096" then 4096 else 0

/-- An environment in which every call succeeds, every operation is a full-size
read of 250 us and the timer fires during every operation. -/
def sampleEnv : Env := ⟨atoiSample, 8, 3, 1048576, 0, 0, 4, fun _ => fullRead⟩

/-! ## Arithmetic lemmas -/

theorem wrap32_cast (x : Int) : ((wrap32 x : Nat) : Int) = x % 4294967296 := by
  unfold wrap32
  exact Int.toNat_of_nonneg (Int.emod_nonneg x (by decide))

theorem wrap32_of_range (x : Int) (h0 : 0 ≤ x) (h1 : x < 4294967296) :
    ((wrap32 x : Nat) : Int) = x := by
  rw [wrap32_cast]
  exact Int.emod_eq_of_lt h0 h1

/-! ## The report -/

theorem reportLine_eq (simple : Nat) (now : Int) (totaltime count : Nat) :
    reportLine simple now totaltime count =
      some (if simple ≠ 0 then Line.simple (if count > 0 then totaltime / count else 0)
            else Line.verbose now (if count > 0 then totaltime / count else 0)
                   totaltime count) := by
  unfold reportLine udiv
  by_cases hs : simple = 0 <;> by_cases hc : count = 0 <;> simp [hs, hc, Nat.pos_of_ne_zero]

theorem dumpRegisters_fired (now : Int) (v : Vars) (h : v.falarm ≠ 0) :
    dumpRegisters now v =
      some ([Event.stdout
              (if v.simple ≠ 0 then Line.simple (if v.count > 0 then v.totaltime / v.count else 0)
               else Line.verbose now (if v.count > 0 then v.totaltime / v.count else 0)
                      v.totaltime v.count)],
            if v.calarm > 0 then
              { v with count := 0, totaltime := 0, falarm := 0, calarm := v.calarm - 1 }
            else { v with count := 0, totaltime := 0, falarm := 0 }) := by
  unfold dumpRegisters
  rw [if_pos h, reportLine_eq]

theorem dumpRegisters_quiet (now : Int) (v : Vars) (h : v.falarm = 0) :
    dumpRegisters now v = some ([], v) := by
  unfold dumpRegisters
  simp [h]

/-- C1: whenever the fire flag is set, the report prints exactly one line, in
simple and in verbose mode alike; its mean is `totaltime / count` rounded down
when `count > 0` and `0` when `count = 0`, and the division never traps (the
report always yields a line). -/
theorem report_mean (now : Int) (v : Vars) (h : v.falarm ≠ 0) :
    ∃ l v', dumpRegisters now v = some ([Event.stdout l], v') ∧
      l = (if v.simple ≠ 0 then Line.simple l.mean
           else Line.verbose now l.mean v.totaltime v.count) ∧
      l.mean = (if v.count > 0 then v.totaltime / v.count else 0) := by
  refine ⟨_, _, dumpRegisters_fired now v h, ?_, ?_⟩
  · by_cases hs : v.simple = 0 <;> simp [hs, Line.mean]
  · by_cases hs : v.simple = 0 <;> simp [hs, Line.mean]

theorem report_mean_witness :
    ({ totaltime := 1000, count := 3, falarm := 1 } : Vars).falarm ≠ 0 ∧
    ∃ l v', dumpRegisters 7 { totaltime := 1000, count := 3, falarm := 1 }
        = some ([Event.stdout l], v') ∧
      l = (if (0 : Nat) ≠ 0 then Line.simple l.mean else Line.verbose 7 l.mean 1000 3) ∧
      l.mean = (if 3 > 0 then 1000 / 3 else 0) :=
  ⟨by decide, report_mean 7 { totaltime := 1000, count := 3, falarm := 1 } (by decide)⟩

/-! ## The timed operation -/

theorem executeOp_full (e : IterEnv) (v : Vars) (h : e.bytes = v.bufsize) :
    executeOp e v =
      ([Event.operation v.optype],
        .next { v with totaltime := wrap32 ((v.totaltime : Int) + elapsed e.ts1 e.ts2),
                       count := (v.count + 1) % 4294967296 }) := by
  unfold executeOp
  rw [if_pos h]

theorem executeOp_short (e : IterEnv) (v : Vars) (h : e.bytes ≠ v.bufsize) (hpos : 0 < e.bytes) :
    executeOp e v = ([Event.operation v.optype], .next v) := by
  unfold executeOp
  rw [if_neg h, if_neg (not_le.mpr hpos)]

theorem executeOp_rewind (e : IterEnv) (v : Vars) (h : e.bytes ≠ v.bufsize) (hle : e.bytes ≤ 0)
    (hseek : 0 ≤ e.seek) :
    executeOp e v = ([Event.operation v.optype, Event.lseekSet], .next v) := by
  unfold executeOp
  rw [if_neg h, if_pos hle, if_neg (not_lt.mpr hseek)]

theorem executeOp_fatal (e : IterEnv) (v : Vars) (h : e.bytes ≠ v.bufsize) (hle : e.bytes ≤ 0)
    (hseek : e.seek < 0) :
    executeOp e v =
      ([Event.operation v.optype, Event.lseekSet, Event.stderr Msg.offsetLoop],
        .out { v with err := 1 }) := by
  unfold executeOp
  rw [if_neg h, if_pos hle, if_pos hseek]

theorem executeOp_other (e : IterEnv) (v : Vars) (h : e.bytes ≠ v.bufsize) :
    (executeOp e v).2.vars.totaltime = v.totaltime ∧ (executeOp e v).2.vars.count = v.count := by
  unfold executeOp
  rw [if_neg h]
  split_ifs <;> simp [Flow.vars]

/-- C3, counterexample: with `totaltime = 10` a full-size operation measured
while the clock is stepped back by 5 us leaves `totaltime = 5`; the total has
decreased between two reports. -/
theorem accumulator_decreases :
    clockSteppedBack.bytes = ({ totaltime := 10, count := 1, bufsize := 4096 } : Vars).bufsize ∧
    (executeOp clockSteppedBack { totaltime := 10, count := 1, bufsize := 4096 }).2.vars.totaltime
      = 5 ∧
    ¬ (({ totaltime := 10, count := 1, bufsize := 4096 } : Vars).totaltime ≤
      (executeOp clockSteppedBack
        { totaltime := 10, count := 1, bufsize := 4096 }).2.vars.totaltime) := by
  decide

/-- C3: a report leaves `totaltime`, `count` and `falarm` at exactly zero; an
iteration that does not report leaves them to the operation, which lowers
neither `totaltime` nor `count` provided a full-size operation has a
non-negative measured duration and neither 32-bit sum wraps; the signal handler
touches neither. -/
theorem accumulator_reset_and_monotone (e : IterEnv) (v : Vars) :
    (v.falarm ≠ 0 → ∃ t v', dumpRegisters e.now v = some (t, v') ∧
        v'.totaltime = 0 ∧ v'.count = 0 ∧ v'.falarm = 0) ∧
    (v.falarm = 0 → dumpRegisters e.now v = some ([], v)) ∧
    ((e.bytes = v.bufsize → 0 ≤ elapsed e.ts1 e.ts2 ∧
          (v.totaltime : Int) + elapsed e.ts1 e.ts2 < 4294967296 ∧ v.count + 1 < 4294967296) →
      v.totaltime ≤ (executeOp e v).2.vars.totaltime ∧
      v.count ≤ (executeOp e v).2.vars.count) ∧
    (sigalarm_h v).totaltime = v.totaltime ∧ (sigalarm_h v).count = v.count := by
  refine ⟨fun h => ?_, dumpRegisters_quiet e.now v, fun h => ?_, rfl, rfl⟩
  · refine ⟨_, _, dumpRegisters_fired e.now v h, ?_⟩
    split_ifs <;> simp
  · by_cases hb : e.bytes = v.bufsize
    · obtain ⟨h0, h1, h2⟩ := h hb
      rw [executeOp_full e v hb]
      simp only [Flow.vars]
      constructor
      · have hw := wrap32_of_range ((v.totaltime : Int) + elapsed e.ts1 e.ts2) (by omega) h1
        omega
      · rw [Nat.mod_eq_of_lt h2]
        omega
    · obtain ⟨h1, h2⟩ := executeOp_other e v hb
      rw [h1, h2]
      exact ⟨le_refl _, le_refl _⟩

theorem accumulator_reset_and_monotone_witness :
    (∃ t v', dumpRegisters fullRead.now { totaltime := 700, count := 3, falarm := 1 }
        = some (t, v') ∧ v'.totaltime = 0 ∧ v'.count = 0 ∧ v'.falarm = 0) ∧
    ({ totaltime := 700, count := 3, falarm := 1, bufsize := 4096 } : Vars).totaltime ≤
      (executeOp fullRead { totaltime := 700, count := 3, falarm := 1, bufsize := 4096 }
        ).2.vars.totaltime :=
  ⟨(accumulator_reset_and_monotone fullRead { totaltime := 700, count := 3, falarm := 1 }).1
      (by decide),
   ((accumulator_reset_and_monotone fullRead
      { totaltime := 700, count := 3, falarm := 1, bufsize := 4096 }).2.2.1
      (fun _ => by decide)).1⟩

/-- C4, counterexample: with `totaltime = 4294967290` a full-size operation of
10 us leaves `totaltime = 4`, not `4294967290 + 10`. -/
theorem accumulator_update_wraps :
    tenMicroseconds.bytes
      = ({ totaltime := 4294967290, count := 7, bufsize := 4096 } : Vars).bufsize ∧
    elapsed tenMicroseconds.ts1 tenMicroseconds.ts2 = 10 ∧
    (executeOp tenMicroseconds
      { totaltime := 4294967290, count := 7, bufsize := 4096 }).2.vars.totaltime = 4 ∧
    (executeOp tenMicroseconds
      { totaltime := 4294967290, count := 7, bufsize := 4096 }).2.vars.totaltime
        ≠ 4294967290 + 10 := by
  decide

/-- C4: a full-size result makes `count` the 32-bit successor of `count` and
`totaltime` the 32-bit sum of `totaltime` and the measured duration, which are
`count + 1` and `totaltime + duration` exactly whenever those fit 32 unsigned
bits; any other result leaves both unchanged. -/
theorem accumulator_update (e : IterEnv) (v : Vars) :
    (e.bytes = v.bufsize →
      (executeOp e v).2.vars.count = (v.count + 1) % 4294967296 ∧
      (((executeOp e v).2.vars.totaltime : Nat) : Int)
        = ((v.totaltime : Int) + elapsed e.ts1 e.ts2) % 4294967296 ∧
      (v.count + 1 < 4294967296 → (executeOp e v).2.vars.count = v.count + 1) ∧
      (0 ≤ (v.totaltime : Int) + elapsed e.ts1 e.ts2 →
        (v.totaltime : Int) + elapsed e.ts1 e.ts2 < 4294967296 →
        (((executeOp e v).2.vars.totaltime : Nat) : Int)
          = (v.totaltime : Int) + elapsed e.ts1 e.ts2)) ∧
    (e.bytes ≠ v.bufsize →
      (executeOp e v).2.vars.totaltime = v.totaltime ∧
      (executeOp e v).2.vars.count = v.count) := by
  refine ⟨fun hb => ?_, executeOp_other e v⟩
  rw [executeOp_full e v hb]
  exact ⟨rfl, wrap32_cast _, fun h => Nat.mod_eq_of_lt h, fun h0 h1 => wrap32_of_range _ h0 h1⟩

theorem accumulator_update_witness :
    (executeOp fullRead { totaltime := 700, count := 3, bufsize := 4096 }).2.vars.count = 3 + 1 ∧
    (((executeOp fullRead { totaltime := 700, count := 3, bufsize := 4096 }).2.vars.totaltime
        : Nat) : Int) = ((700 : Nat) : Int) + elapsed fullRead.ts1 fullRead.ts2 ∧
    (executeOp fullRead { totaltime := 700, count := 3, bufsize := 512 }).2.vars.totaltime = 700 :=
  ⟨((accumulator_update fullRead { totaltime := 700, count := 3, bufsize := 4096 }).1
      (by decide)).2.2.1 (by decide),
   ((accumulator_update fullRead { totaltime := 700, count := 3, bufsize := 4096 }).1
      (by decide)).2.2.2 (by decide) (by decide),
   ((accumulator_update fullRead { totaltime := 700, count := 3, bufsize := 512 }).2
      (by decide)).1⟩

/-- C5, counterexample: a result of zero bytes is non-negative and differs from
the buffer size, yet the operation is followed by the seek to offset 0. -/
theorem zero_bytes_seeks :
    0 ≤ endOfDevice.bytes ∧ endOfDevice.bytes ≠ ({ bufsize := 4096 } : Vars).bufsize ∧
    (executeOp endOfDevice { bufsize := 4096 }).1 = [Event.operation 0, Event.lseekSet] ∧
    seeks (executeOp endOfDevice { bufsize := 4096 }).1 = true := by
  decide

/-- C5: a result with a positive byte count different from the buffer size
leaves every variable (so `totaltime` and `count`) unchanged, performs nothing
but the operation itself (no seek to offset 0), and the loop goes on. -/
theorem short_result_continues (e : IterEnv) (v : Vars) (hpos : 0 < e.bytes)
    (hne : e.bytes ≠ v.bufsize) :
    executeOp e v = ([Event.operation v.optype], Flow.next v) ∧
    seeks (executeOp e v).1 = false := by
  rw [executeOp_short e v hne hpos]
  exact ⟨rfl, rfl⟩

theorem short_result_continues_witness :
    0 < shortRead.bytes ∧
    shortRead.bytes ≠ ({ totaltime := 90, count := 2, bufsize := 4096 } : Vars).bufsize ∧
    executeOp shortRead { totaltime := 90, count := 2, bufsize := 4096 }
      = ([Event.operation 0], Flow.next { totaltime := 90, count := 2, bufsize := 4096 }) ∧
    seeks (executeOp shortRead { totaltime := 90, count := 2, bufsize := 4096 }).1 = false :=
  ⟨by decide, by decide,
   short_result_continues shortRead { totaltime := 90, count := 2, bufsize := 4096 }
     (by decide) (by decide)⟩

/-- C7, counterexample: with `totaltime = 0` a full-size operation whose end
timestamp is 1 us before its start timestamp leaves `totaltime = 4294967295`. -/
theorem negative_duration_wraps :
    clockBackOne.bytes = ({ bufsize := 4096 } : Vars).bufsize ∧
    elapsed clockBackOne.ts1 clockBackOne.ts2 = -1 ∧
    (executeOp clockBackOne { bufsize := 4096 }).2.vars.totaltime = 4294967295 ∧
    (executeOp clockBackOne { bufsize := 4096 }).2.vars.totaltime
      ≠ ({ bufsize := 4096 } : Vars).totaltime := by
  decide

/-- C7: a full-size operation with a negative measured duration is counted like
any other: `count` becomes its 32-bit successor and `totaltime` the 32-bit sum
of `totaltime` and the negative difference, so `totaltime` is changed whenever
the difference is above `-2 ^ 32`. -/
theorem negative_duration_added (e : IterEnv) (v : Vars) (hb : e.bytes = v.bufsize)
    (hneg : elapsed e.ts1 e.ts2 < 0) :
    (((executeOp e v).2.vars.totaltime : Nat) : Int)
      = ((v.totaltime : Int) + elapsed e.ts1 e.ts2) % 4294967296 ∧
    (executeOp e v).2.vars.count = (v.count + 1) % 4294967296 ∧
    (v.totaltime < 4294967296 → -4294967296 < elapsed e.ts1 e.ts2 →
      (executeOp e v).2.vars.totaltime ≠ v.totaltime) := by
  rw [executeOp_full e v hb]
  refine ⟨wrap32_cast _, rfl, fun h1 h2 heq => ?_⟩
  have hw := wrap32_cast ((v.totaltime : Int) + elapsed e.ts1 e.ts2)
  simp only [Flow.vars] at heq
  rw [heq] at hw
  omega

theorem negative_duration_added_witness :
    clockSteppedBack.bytes = ({ totaltime := 10, bufsize := 4096 } : Vars).bufsize ∧
    elapsed clockSteppedBack.ts1 clockSteppedBack.ts2 < 0 ∧
    (executeOp clockSteppedBack { totaltime := 10, bufsize := 4096 }).2.vars.totaltime ≠ 10 :=
  ⟨by decide, by decide,
   (negative_duration_added clockSteppedBack { totaltime := 10, bufsize := 4096 }
     (by decide) (by decide)).2.2 (by decide) (by decide)⟩

/-! ## The loop -/

theorem reports_append (t t' : List Event) : reports (t ++ t') = reports t ++ reports t' := by
  induction t with
  | nil => rfl
  | cons a t ih => cases a <;> simp [reports, ih]

theorem dumpRegisters_some (now : Int) (v : Vars) :
    ∃ t v1, dumpRegisters now v = some (t, v1) ∧
      v1.err = v.err ∧ v1.bufsize = v.bufsize ∧ v1.optype = v.optype ∧ v1.falarm = 0 ∧
      v1.calarm = (if v.falarm ≠ 0 ∧ v.calarm > 0 then v.calarm - 1 else v.calarm) ∧
      (reports t).length = (if v.falarm ≠ 0 then 1 else 0) ∧ seeks t = false := by
  by_cases h : v.falarm = 0
  · exact ⟨_, _, dumpRegisters_quiet now v h, rfl, rfl, rfl, h, by simp [h], by simp [h, reports],
      rfl⟩
  · refine ⟨_, _, dumpRegisters_fired now v h, ?_, ?_, ?_, ?_, ?_, ?_, rfl⟩
    all_goals by_cases hc : v.calarm > 0 <;> simp [h, hc, reports]

theorem executeOp_next (e : IterEnv) (v : Vars) (hseek : 0 ≤ e.seek) :
    ∃ t v2, executeOp e v = (t, .next v2) ∧ v2.err = v.err ∧ v2.calarm = v.calarm ∧
      v2.falarm = v.falarm ∧ reports t = [] := by
  by_cases hb : e.bytes = v.bufsize
  · exact ⟨_, _, executeOp_full e v hb, rfl, rfl, rfl, rfl⟩
  · by_cases hle : e.bytes ≤ 0
    · exact ⟨_, _, executeOp_rewind e v hb hle hseek, rfl, rfl, rfl, rfl⟩
    · exact ⟨_, _, executeOp_short e v hb (not_le.mp hle), rfl, rfl, rfl, rfl⟩

theorem iteration_next (e : IterEnv) (v : Vars) (hseek : 0 ≤ e.seek) :
    ∃ t v', iteration e v = some (t, .next v') ∧ v'.err = v.err ∧
      v'.falarm = (if e.sigalrm then 1 else 0) ∧
      v'.calarm = (if v.falarm ≠ 0 ∧ v.calarm > 0 then v.calarm - 1 else v.calarm) ∧
      (reports t).length = (if v.falarm ≠ 0 then 1 else 0) := by
  obtain ⟨t, v1, hd, he, -, -, hf, hc, hr, -⟩ := dumpRegisters_some e.now v
  obtain ⟨t', v2, hx, he2, hc2, hf2, hr2⟩ := executeOp_next e v1 hseek
  refine ⟨t ++ t', if e.sigalrm then sigalarm_h v2 else v2, ?_, ?_, ?_, ?_, ?_⟩
  · simp [iteration, hd, hx]
  · cases e.sigalrm <;> simp [sigalarm_h, he, he2]
  · cases e.sigalrm <;> simp [sigalarm_h, hf, hf2]
  · rw [← hc, ← hc2]
    cases e.sigalrm <;> simp [sigalarm_h]
  · rw [reports_append, hr2, List.append_nil, hr]

theorem runLoop_done (iter : Nat → IterEnv) (fuel k : Nat) (v : Vars) (h : v.calarm = 0) :
    runLoop iter fuel k v = ⟨.exit v.err, [], v⟩ := by
  unfold runLoop
  simp [h]

theorem runLoop_next (iter : Nat → IterEnv) (fuel k : Nat) (v v' : Vars) (t : List Event)
    (h : v.calarm ≠ 0) (hi : iteration (iter k) v = some (t, .next v')) :
    runLoop iter (fuel + 1) k v =
      ⟨(runLoop iter fuel (k + 1) v').status, t ++ (runLoop iter fuel (k + 1) v').trace,
        (runLoop iter fuel (k + 1) v').vars⟩ := by
  rw [runLoop]
  simp [h, hi]

theorem finishes_done (iter : Nat → IterEnv) (k : Nat) (v : Vars) (h : v.calarm = 0)
    (he : v.err = 0) : Finishes iter k v 0 := by
  refine ⟨0, fun fuel' _ => ?_⟩
  rw [runLoop_done iter fuel' k v h, he]
  exact ⟨rfl, rfl⟩

theorem finishes_step (iter : Nat → IterEnv) (k : Nat) (v v' : Vars) (t : List Event) (m : Nat)
    (h : v.calarm ≠ 0) (hi : iteration (iter k) v = some (t, .next v'))
    (hf : Finishes iter (k + 1) v' m) : Finishes iter k v ((reports t).length + m) := by
  obtain ⟨fuel, hfuel⟩ := hf
  refine ⟨fuel + 1, fun fuel' hle => ?_⟩
  obtain ⟨f, rfl⟩ : ∃ f, fuel' = f + 1 := ⟨fuel' - 1, by omega⟩
  obtain ⟨hs, hr⟩ := hfuel f (by omega)
  rw [runLoop_next iter f k v v' t h hi]
  exact ⟨hs, by simp [reports_append, hr]⟩

theorem finishes_fired (iter : Nat → IterEnv) (hseek : ∀ k, 0 ≤ (iter k).seek) (n : Nat)
    (ih : ∀ k v, v.calarm = (n : Int) → v.err = 0 → Finishes iter k v n)
    (k : Nat) (v : Vars) (hc : v.calarm = ((n + 1 : Nat) : Int)) (he : v.err = 0)
    (hf : v.falarm ≠ 0) : Finishes iter k v (n + 1) := by
  obtain ⟨t, v', hi, he', -, hc', hr⟩ := iteration_next (iter k) v (hseek k)
  have hpos : v.calarm > 0 := by omega
  rw [if_pos ⟨hf, hpos⟩] at hc'
  rw [if_pos hf] at hr
  have := finishes_step iter k v v' t n (by omega) hi (ih (k + 1) v' (by omega) (by omega))
  rw [hr, Nat.add_comm] at this
  exact this

theorem finishes_wait (iter : Nat → IterEnv) (hseek : ∀ k, 0 ≤ (iter k).seek) (n : Nat)
    (ih : ∀ k v, v.calarm = (n : Int) → v.err = 0 → Finishes iter k v n) :
    ∀ (d k : Nat) (v : Vars), v.calarm = ((n + 1 : Nat) : Int) → v.err = 0 →
      (iter (k + d)).sigalrm = true → Finishes iter k v (n + 1) := by
  intro d
  induction d with
  | zero =>
    intro k v hc he hs
    by_cases hf : v.falarm = 0
    · obtain ⟨t, v', hi, he', hf', hc', hr⟩ := iteration_next (iter k) v (hseek k)
      rw [Nat.add_zero] at hs
      rw [hs] at hf'
      simp only [hf, ne_eq, not_true_eq_false, false_and, if_false] at hc' hr
      have h1 := finishes_fired iter hseek n ih (k + 1) v' (by omega) (by omega)
        (by simp [hf'])
      have := finishes_step iter k v v' t (n + 1) (by omega) hi h1
      rw [hr, Nat.zero_add] at this
      exact this
    · exact finishes_fired iter hseek n ih k v hc he hf
  | succ d ihd =>
    intro k v hc he hs
    by_cases hf : v.falarm = 0
    · obtain ⟨t, v', hi, he', -, hc', hr⟩ := iteration_next (iter k) v (hseek k)
      simp only [hf, ne_eq, not_true_eq_false, false_and, if_false] at hc' hr
      have h1 := ihd (k + 1) v' (by omega) (by omega)
        (by rw [show k + 1 + d = k + (d + 1) by omega]; exact hs)
      have := finishes_step iter k v v' t (n + 1) (by omega) hi h1
      rw [hr, Nat.zero_add] at this
      exact this
    · exact finishes_fired iter hseek n ih k v hc he hf

theorem finishes_budget (iter : Nat → IterEnv) (hseek : ∀ k, 0 ≤ (iter k).seek)
    (hfire : ∀ k, ∃ j, k ≤ j ∧ (iter j).sigalrm = true) :
    ∀ (n k : Nat) (v : Vars), v.calarm = (n : Int) → v.err = 0 → Finishes iter k v n := by
  intro n
  induction n with
  | zero =>
    intro k v hc he
    exact finishes_done iter k v (by simpa using hc) he
  | succ n ih =>
    intro k v hc he
    obtain ⟨j, hj, hs⟩ := hfire k
    exact finishes_wait iter hseek n ih (j - k) k v hc he
      (by rw [show k + (j - k) = j by omega]; exact hs)

/-- C2: for every bound `N > 0`, if the timer keeps setting the fire flag and no
corrective seek fails, the loop started with `calarm = N` prints exactly `N`
report lines and then reaches `out` with exit status 0; this is the result of
every run that is given enough iterations. -/
theorem bounded_run (iter : Nat → IterEnv) (N : Nat) (v : Vars) (_hN : 0 < N)
    (hc : v.calarm = (N : Int)) (he : v.err = 0)
    (hfire : ∀ k, ∃ j, k ≤ j ∧ (iter j).sigalrm = true)
    (hseek : ∀ k, 0 ≤ (iter k).seek) :
    ∃ fuel, ∀ fuel', fuel ≤ fuel' →
      (runLoop iter fuel' 0 v).status = Status.exit 0 ∧
      (reports (runLoop iter fuel' 0 v).trace).length = N :=
  finishes_budget iter hseek hfire N 0 v hc he

theorem bounded_run_witness :
    0 < 3 ∧
    ∃ fuel, ∀ fuel', fuel ≤ fuel' →
      (runLoop (fun _ => fullRead) fuel' 0 { calarm := 3, bufsize := 4096 }).status
        = Status.exit 0 ∧
      (reports (runLoop (fun _ => fullRead) fuel' 0
        { calarm := 3, bufsize := 4096 }).trace).length = 3 :=
  ⟨by decide,
   bounded_run (fun _ => fullRead) 3 { calarm := 3, bufsize := 4096 } (by decide) rfl rfl
     (fun k => ⟨k, le_refl k, rfl⟩) (fun _ => (by decide : (0 : Int) ≤ fullRead.seek))⟩

/-! ## Fatal errors in the loop -/

theorem executeOp_cases (e : IterEnv) (v : Vars) :
    (∃ t v2, executeOp e v = (t, .next v2) ∧ v2.err = v.err) ∨
    (∃ t, executeOp e v = (t, .out { v with err := 1 }) ∧
      e.bytes ≠ v.bufsize ∧ e.bytes ≤ 0 ∧ e.seek < 0) := by
  by_cases hb : e.bytes = v.bufsize
  · exact Or.inl ⟨_, _, executeOp_full e v hb, rfl⟩
  · by_cases hle : e.bytes ≤ 0
    · by_cases hs : e.seek < 0
      · exact Or.inr ⟨_, executeOp_fatal e v hb hle hs, hb, hle, hs⟩
      · exact Or.inl ⟨_, _, executeOp_rewind e v hb hle (not_lt.mp hs), rfl⟩
    · exact Or.inl ⟨_, _, executeOp_short e v hb (not_le.mp hle), rfl⟩

theorem iteration_cases (e : IterEnv) (v : Vars) :
    (∃ t v', iteration e v = some (t, .next v') ∧ v'.err = v.err) ∨
    (∃ t v', iteration e v = some (t, .out v') ∧ v'.err = 1 ∧ e.bytes ≤ 0 ∧ e.seek < 0) := by
  obtain ⟨t, v1, hd, he, -, -, -, -, -, -⟩ := dumpRegisters_some e.now v
  rcases executeOp_cases e v1 with ⟨t', v2, hx, he2⟩ | ⟨t', hx, -, hle, hs⟩
  · refine Or.inl ⟨t ++ t', if e.sigalrm then sigalarm_h v2 else v2, ?_, ?_⟩
    · simp [iteration, hd, hx]
    · cases e.sigalrm <;> simp [sigalarm_h, he, he2]
  · exact Or.inr ⟨t ++ t', { v1 with err := 1 }, by simp [iteration, hd, hx], rfl, hle, hs⟩

theorem runLoop_out (iter : Nat → IterEnv) (fuel k : Nat) (v v' : Vars) (t : List Event)
    (h : v.calarm ≠ 0) (hi : iteration (iter k) v = some (t, .out v')) :
    runLoop iter (fuel + 1) k v = ⟨.exit v'.err, t, v'⟩ := by
  rw [runLoop]
  simp [h, hi, Flow.vars]

theorem runLoop_exit_one (iter : Nat → IterEnv) :
    ∀ (fuel k : Nat) (v : Vars), v.err = 0 → (runLoop iter fuel k v).status = .exit 1 →
      ∃ j, k ≤ j ∧ j < k + fuel ∧ (iter j).bytes ≤ 0 ∧ (iter j).seek < 0 := by
  intro fuel
  induction fuel with
  | zero =>
    intro k v he h
    by_cases hc : v.calarm = 0
    · rw [runLoop_done iter 0 k v hc, he] at h
      simp at h
    · rw [runLoop] at h
      simp [hc] at h
  | succ fuel ih =>
    intro k v he h
    by_cases hc : v.calarm = 0
    · rw [runLoop_done iter _ k v hc, he] at h
      simp at h
    · rcases iteration_cases (iter k) v with ⟨t, v', hi, he'⟩ | ⟨t, v', hi, -, hle, hs⟩
      · rw [runLoop_next iter fuel k v v' t hc hi] at h
        obtain ⟨j, hj1, hj2, hj⟩ := ih (k + 1) v' (he'.trans he) h
        exact ⟨j, by omega, by omega, hj⟩
      · exact ⟨k, le_refl k, by omega, hle, hs⟩

theorem runLoop_fatal (iter : Nat → IterEnv) (fuel k : Nat) (v : Vars) (hc : v.calarm ≠ 0)
    (hb : (iter k).bytes ≠ v.bufsize) (hle : (iter k).bytes ≤ 0) (hs : (iter k).seek < 0) :
    (runLoop iter (fuel + 1) k v).status = .exit 1 := by
  obtain ⟨t, v1, hd, -, hbuf, -, -, -, -, -⟩ := dumpRegisters_some (iter k).now v
  have hx := executeOp_fatal (iter k) v1 (by rw [hbuf]; exact hb) hle hs
  have hi : iteration (iter k) v =
      some (t ++ [Event.operation v1.optype, Event.lseekSet, Event.stderr Msg.offsetLoop],
        .out { v1 with err := 1 }) := by
    simp [iteration, hd, hx]
  rw [runLoop_out iter fuel k v { v1 with err := 1 } _ hc hi]

/-- C6, counterexample: an operation that returns zero bytes, which is not a
failure of the operation, followed by a failing seek to offset 0 ends the loop
with exit status 1. -/
theorem zero_bytes_fatal :
    0 ≤ endOfDeviceSeekFails.bytes ∧
    (runLoop (fun _ => endOfDeviceSeekFails) 1 0 { bufsize := 4096 }).status = Status.exit 1 := by
  decide

/-- C6: the operation step leaves through `out` exactly when the byte count
differs from the buffer size, is zero or negative, and the seek to offset 0 that
follows fails; a run of the loop entered with `err = 0` has exit status 1 only if
some iteration had such a result, and has it as soon as a running iteration has
one.  When the seek succeeds the step is the operation and the seek, once each,
and the loop goes on with every variable unchanged. -/
theorem fatal_seek (iter : Nat → IterEnv) (fuel k : Nat) (e : IterEnv) (v : Vars) :
    ((∃ v', (executeOp e v).2 = Flow.out v') ↔
      (e.bytes ≠ v.bufsize ∧ e.bytes ≤ 0 ∧ e.seek < 0)) ∧
    (e.bytes ≠ v.bufsize → e.bytes ≤ 0 → e.seek < 0 →
      (executeOp e v).2 = Flow.out { v with err := 1 }) ∧
    (e.bytes ≠ v.bufsize → e.bytes ≤ 0 → 0 ≤ e.seek →
      executeOp e v = ([Event.operation v.optype, Event.lseekSet], Flow.next v)) ∧
    (v.err = 0 → (runLoop iter fuel k v).status = Status.exit 1 →
      ∃ j, k ≤ j ∧ j < k + fuel ∧ (iter j).bytes ≤ 0 ∧ (iter j).seek < 0) ∧
    (v.calarm ≠ 0 → (iter k).bytes ≠ v.bufsize → (iter k).bytes ≤ 0 → (iter k).seek < 0 →
      (runLoop iter (fuel + 1) k v).status = Status.exit 1) := by
  refine ⟨⟨fun ⟨v', h⟩ => ?_, fun ⟨hb, hle, hs⟩ => ⟨_, by rw [executeOp_fatal e v hb hle hs]⟩⟩,
    fun hb hle hs => by rw [executeOp_fatal e v hb hle hs],
    executeOp_rewind e v, runLoop_exit_one iter fuel k v, runLoop_fatal iter fuel k v⟩
  rcases executeOp_cases e v with ⟨t, v2, hx, -⟩ | ⟨t, -, hb, hle, hs⟩
  · rw [hx] at h
    exact absurd h (by simp)
  · exact ⟨hb, hle, hs⟩

theorem fatal_seek_witness :
    executeOp failedRead { totaltime := 90, count := 2, calarm := 5, bufsize := 4096 }
      = ([Event.operation 0, Event.lseekSet],
         Flow.next { totaltime := 90, count := 2, calarm := 5, bufsize := 4096 }) ∧
    (runLoop (fun _ => endOfDeviceSeekFails) (0 + 1) 0 { calarm := 5, bufsize := 4096 }).status
      = Status.exit 1 :=
  ⟨(fatal_seek (fun _ => failedRead) 0 0 failedRead
      { totaltime := 90, count := 2, calarm := 5, bufsize := 4096 }).2.2.1
      (by decide) (by decide) (by decide),
   (fatal_seek (fun _ => endOfDeviceSeekFails) 0 0 endOfDeviceSeekFails
      { calarm := 5, bufsize := 4096 }).2.2.2.2
      (by decide) (by decide) (by decide) (by decide)⟩

/-! ## Command line -/

theorem opensDevice_append (t t' : List Event) :
    opensDevice (t ++ t') = (opensDevice t || opensDevice t') := by
  simp [opensDevice]

theorem getoptCase_inv (atoi : String → Int) (v : Vars) (o : GetoptRet) :
    opensDevice (getoptCase atoi v o).1 = false ∧
    (getoptCase atoi v o).2.vars.err = v.err ∧
    (getoptCase atoi v o).2.vars.bdevfd = v.bdevfd := by
  unfold getoptCase
  dsimp only
  split_ifs <;> simp [opensDevice, Flow.vars]

theorem getoptLoop_inv (atoi : String → Int) :
    ∀ (os : List GetoptRet) (v : Vars),
      opensDevice (getoptLoop atoi v os).1 = false ∧
      (getoptLoop atoi v os).2.vars.err = v.err ∧
      (getoptLoop atoi v os).2.vars.bdevfd = v.bdevfd := by
  intro os
  induction os with
  | nil => intro v; simp [getoptLoop, opensDevice, Flow.vars]
  | cons o os ih =>
    intro v
    obtain ⟨h1, h2, h3⟩ := getoptCase_inv atoi v o
    rw [getoptLoop]
    rcases hg : getoptCase atoi v o with ⟨t, f⟩
    rw [hg] at h1 h2 h3
    cases f with
    | next v' =>
      obtain ⟨i1, i2, i3⟩ := ih v'
      simp only [Flow.vars] at h2 h3
      simp only
      rw [opensDevice_append, h1, i1, i2, i3, h2, h3]
      simp
    | err v' => exact ⟨h1, h2, h3⟩
    | out v' => exact ⟨h1, h2, h3⟩

theorem getoptLoop_append (atoi : String → Int) (post : List GetoptRet) :
    ∀ (pre : List GetoptRet) (v : Vars),
      getoptLoop atoi v (pre ++ post) =
        match getoptLoop atoi v pre with
        | (t, .next v') => (t ++ (getoptLoop atoi v' post).1, (getoptLoop atoi v' post).2)
        | r => r := by
  intro pre
  induction pre with
  | nil => intro v; simp [getoptLoop]
  | cons o os ih =>
    intro v
    rw [List.cons_append, getoptLoop, getoptLoop]
    rcases hg : getoptCase atoi v o with ⟨t, f⟩
    cases f with
    | next v' =>
      simp only
      rw [ih v']
      rcases hl : getoptLoop atoi v' os with ⟨t', f'⟩
      cases f' <;> simp
    | err v' => rfl
    | out v' => rfl

theorem main_getopt_stop (env : Env) (fuel : Nat) (opts : List GetoptRet) (args : List String)
    (h : ∀ v, (getoptLoop env.atoi {} opts).2 ≠ .next v) :
    main env fuel opts args =
      ⟨.exit (if (getoptLoop env.atoi {} opts).2.isErr then 1 else 0),
        (getoptLoop env.atoi {} opts).1⟩ := by
  obtain ⟨-, he, hfd⟩ := getoptLoop_inv env.atoi opts {}
  unfold main
  rcases hg : getoptLoop env.atoi {} opts with ⟨t, f⟩
  rw [hg] at h he hfd
  cases f with
  | next v => exact absurd rfl (h v)
  | err v =>
    simp only [Flow.vars] at hfd
    simp [leave, labelErr, labelOut, Flow.isErr, hfd]
  | out v =>
    simp only [Flow.vars] at he hfd
    simp [leave, labelOut, Flow.isErr, hfd, he]

theorem getoptCase_default (atoi : String → Int) (v : Vars) (o : GetoptRet)
    (hs : o.ret ≠ 's') (hw : o.ret ≠ 'w') (hz : o.ret ≠ 'z') (hb : o.ret ≠ 'b') :
    getoptCase atoi v o = ([Event.usage], .out v) := by
  unfold getoptCase
  rw [if_neg hs, if_neg hw, if_neg hz, if_neg hb]

theorem getoptCase_bufsize (atoi : String → Int) (v : Vars) (arg : String)
    (h : atoi arg ≤ 0) : ∃ t v', getoptCase atoi v ⟨'b', arg⟩ = (t, .err v') := by
  by_cases hset : v.bufsize = -1
  · refine ⟨[Event.stderr (Msg.invalidBufsize (atoi arg))], { v with bufsize := atoi arg }, ?_⟩
    simp [getoptCase, hset, h]
  · refine ⟨[Event.stderr (Msg.bufsizeAlreadySet v.bufsize)], v, ?_⟩
    simp [getoptCase, hset]

theorem getoptLoop_stop (atoi : String → Int) (pre post : List GetoptRet) (o : GetoptRet)
    (v : Vars) (stop : Bool)
    (ho : ∀ v1, ∃ t v', getoptCase atoi v1 o = (t, if stop then .err v' else .out v')) :
    (∀ v', (getoptLoop atoi v (pre ++ o :: post)).2 ≠ .next v') ∧
    (getoptLoop atoi v (pre ++ o :: post)).2.isErr =
      (if stop then !(getoptLoop atoi v pre).2.isOut else (getoptLoop atoi v pre).2.isErr) := by
  rw [getoptLoop_append]
  rcases hl : getoptLoop atoi v pre with ⟨t, f⟩
  cases f with
  | next v1 =>
    obtain ⟨t', v', hc⟩ := ho v1
    have hcons : getoptLoop atoi v1 (o :: post) = (t', if stop then .err v' else .out v') := by
      rw [getoptLoop, hc]
      cases stop <;> rfl
    simp only [hcons]
    cases stop <;> simp [Flow.isErr, Flow.isOut]
  | err v1 => cases stop <;> simp [Flow.isErr, Flow.isOut]
  | out v1 => cases stop <;> simp [Flow.isErr, Flow.isOut]

/-- C8, counterexample: the command line `-? /dev/sdb` (one unrecognised flag,
no `-h`) ends with exit status 0, not 1. -/
theorem bad_flag_exits_zero :
    main sampleEnv 10 [⟨'?', ""⟩] ["/dev/sdb"] = ⟨Status.exit 0, [Event.usage]⟩ ∧
    (main sampleEnv 10 [⟨'?', ""⟩] ["/dev/sdb"]).status ≠ Status.exit 1 := by
  decide

/-- C8: when `getopt` reports a flag other than `h`, `s`, `w`, `z`, `b`, the
device is never opened; the exit status is 1 when an option before that flag was
rejected and 0 otherwise, and when every option before it was accepted the
program prints the usage text and exits with status 0. -/
theorem bad_flag_prints_usage (env : Env) (fuel : Nat) (pre post : List GetoptRet)
    (bad : GetoptRet) (args : List String) (_hh : bad.ret ≠ 'h') (hs : bad.ret ≠ 's')
    (hw : bad.ret ≠ 'w') (hz : bad.ret ≠ 'z') (hb : bad.ret ≠ 'b') :
    opensDevice (main env fuel (pre ++ bad :: post) args).trace = false ∧
    (main env fuel (pre ++ bad :: post) args).status =
      Status.exit (if (getoptLoop env.atoi {} pre).2.isErr then 1 else 0) ∧
    (∀ t v, getoptLoop env.atoi {} pre = (t, Flow.next v) →
      main env fuel (pre ++ bad :: post) args = ⟨Status.exit 0, t ++ [Event.usage]⟩) := by
  obtain ⟨hstop, herr⟩ := getoptLoop_stop env.atoi pre post bad {} false
    (fun v1 => ⟨_, v1, getoptCase_default env.atoi v1 bad hs hw hz hb⟩)
  have hm := main_getopt_stop env fuel (pre ++ bad :: post) args hstop
  rw [hm]
  refine ⟨(getoptLoop_inv env.atoi _ {}).1, by rw [herr]; rfl, fun t v hp => ?_⟩
  rw [herr, getoptLoop_append, hp]
  simp [Flow.isErr, getoptLoop, getoptCase_default env.atoi v bad hs hw hz hb]

theorem bad_flag_prints_usage_witness :
    opensDevice (main sampleEnv 10 ([⟨'s', ""⟩] ++ ⟨'?', ""⟩ :: []) ["/dev/sdb"]).trace = false ∧
    (main sampleEnv 10 ([⟨'s', ""⟩] ++ ⟨'?', ""⟩ :: []) ["/dev/sdb"]).status =
      Status.exit (if (getoptLoop sampleEnv.atoi {} [⟨'s', ""⟩]).2.isErr then 1 else 0) :=
  ⟨(bad_flag_prints_usage sampleEnv 10 [⟨'s', ""⟩] [] ⟨'?', ""⟩ ["/dev/sdb"]
      (by decide) (by decide) (by decide) (by decide) (by decide)).1,
   (bad_flag_prints_usage sampleEnv 10 [⟨'s', ""⟩] [] ⟨'?', ""⟩ ["/dev/sdb"]
      (by decide) (by decide) (by decide) (by decide) (by decide)).2.1⟩

/-- C10, counterexample: the command line `-h -b 0 /dev/sdb` has a buffer size
of 0 and ends with exit status 0, not 1. -/
theorem help_before_bufsize_exits_zero :
    sampleEnv.atoi "0" ≤ 0 ∧
    main sampleEnv 10 [⟨'h', ""⟩, ⟨'b', "0"⟩] ["/dev/sdb"] = ⟨Status.exit 0, [Event.usage]⟩ ∧
    (main sampleEnv 10 [⟨'h', ""⟩, ⟨'b', "0"⟩] ["/dev/sdb"]).status ≠ Status.exit 1 := by
  decide

/-- C10: when `-b` comes with an argument whose integer value is 0 or negative,
the device is never opened, whatever the other flags and positional arguments;
the exit status is 1 unless an earlier `-h` or unrecognised flag has already
sent the program to print the usage text, in which case it is 0. -/
theorem invalid_bufsize_rejected (env : Env) (fuel : Nat) (pre post : List GetoptRet)
    (arg : String) (args : List String) (h : env.atoi arg ≤ 0) :
    opensDevice (main env fuel (pre ++ ⟨'b', arg⟩ :: post) args).trace = false ∧
    (main env fuel (pre ++ ⟨'b', arg⟩ :: post) args).status =
      Status.exit (if (getoptLoop env.atoi {} pre).2.isOut then 0 else 1) := by
  obtain ⟨hstop, herr⟩ := getoptLoop_stop env.atoi pre post ⟨'b', arg⟩ {} true
    (fun v1 => getoptCase_bufsize env.atoi v1 arg h)
  have hm := main_getopt_stop env fuel (pre ++ ⟨'b', arg⟩ :: post) args hstop
  rw [hm]
  refine ⟨(getoptLoop_inv env.atoi _ {}).1, ?_⟩
  rw [herr]
  cases (getoptLoop env.atoi {} pre).2.isOut <;> rfl

theorem invalid_bufsize_rejected_witness :
    sampleEnv.atoi "0" ≤ 0 ∧
    opensDevice (main sampleEnv 10 ([⟨'w', ""⟩] ++ ⟨'b', "0"⟩ :: [⟨'s', ""⟩])
      ["/dev/sdb", "3"]).trace = false ∧
    (main sampleEnv 10 ([⟨'w', ""⟩] ++ ⟨'b', "0"⟩ :: [⟨'s', ""⟩]) ["/dev/sdb", "3"]).status =
      Status.exit (if (getoptLoop sampleEnv.atoi {} [⟨'w', ""⟩]).2.isOut then 0 else 1) :=
  ⟨by decide,
   invalid_bufsize_rejected sampleEnv 10 [⟨'w', ""⟩] [⟨'s', ""⟩] "0" ["/dev/sdb", "3"]
     (by decide)⟩

/-! ## Iteration counter -/

theorem zero_iterations_rejected (env : Env) (fuel : Nat) (opts : List GetoptRet)
    (dev n : String) (t0 : List Event) (v0 : Vars)
    (hp : getoptLoop env.atoi {} opts = (t0, Flow.next v0)) (hn : env.atoi n = 0) :
    (main env fuel opts [dev, n]).status = Status.exit 1 ∧
    opensDevice (main env fuel opts [dev, n]).trace = false := by
  obtain ⟨ho, -, hfd⟩ := getoptLoop_inv env.atoi opts {}
  rw [hp] at ho hfd
  simp only [Flow.vars] at ho hfd
  unfold main
  rw [hp]
  by_cases ha : env.asprintf ≤ 0
  · simp [fetchArgs, ha, leave, labelErr, labelOut, hfd, opensDevice_append, ho]
    simp [opensDevice]
  · simp [fetchArgs, ha, hn, leave, labelErr, labelOut, hfd, opensDevice_append, ho]
    simp [opensDevice]

theorem runLoop_negative (iter : Nat → IterEnv) (hseek : ∀ k, 0 ≤ (iter k).seek) :
    ∀ (fuel k : Nat) (v : Vars), v.calarm < 0 → (runLoop iter fuel k v).status = .running := by
  intro fuel
  induction fuel with
  | zero =>
    intro k v h
    rw [runLoop]
    simp [show v.calarm ≠ 0 by omega]
  | succ fuel ih =>
    intro k v h
    obtain ⟨t, v', hi, -, -, hc, -⟩ := iteration_next (iter k) v (hseek k)
    rw [runLoop_next iter fuel k v v' t (by omega) hi]
    rw [if_neg (by omega)] at hc
    exact ih (k + 1) v' (by omega)

/-- C9, the code at the failing input: for the command line `/dev/sdb -5` the
iteration counter -5 passes the check, the device is opened, and the loop is
still running after any number of iterations. -/
theorem negative_iterations_unbounded :
    atoiSample "-5" = -5 ∧
    ∀ fuel, (main sampleEnv fuel [] ["/dev/sdb", "-5"]).status = Status.running ∧
      opensDevice (main sampleEnv fuel [] ["/dev/sdb", "-5"]).trace = true := by
  refine ⟨by decide, fun fuel => ?_⟩
  have hr := runLoop_negative (fun _ => fullRead) (fun _ => (by decide : (0 : Int) ≤ fullRead.seek))
    fuel 0 { calarm := -5, bufsize := 4096, bdevfd := 3 } (by decide)
  have hargs : fetchArgs sampleEnv {} ["/dev/sdb", "-5"]
      = ([], Flow.next { calarm := -5, bufsize := 4096 }, some "/dev/sdb") := by decide
  have hsetup : setup sampleEnv { calarm := -5, bufsize := 4096 } "/dev/sdb"
      = ([Event.openDev "/dev/sdb", Event.lseekEnd, Event.lseekSet, Event.memalign 4096,
          Event.setitimer], Flow.next { calarm := -5, bufsize := 4096, bdevfd := 3 }) := by
    decide
  have hiter : sampleEnv.iter = fun _ => fullRead := rfl
  simp only [main, getoptLoop, hargs, hsetup, hiter, hr]
  simp [opensDevice]

end Latency
